import Mathlib

/-!
Shallow embedding of the assist `generate_from_impl_for_enum`
(crates/assists/src/handlers/generate_from_impl_for_enum.rs).

The assist adds a `From` impl for an enum variant with exactly one field.
We model the syntax-tree fragments the handler touches (enum declaration,
variants, field shapes, generic parameter lists), the semantic context used
by the duplicate check (`existing_from_impl`), and the handler itself as a
pure function `propose` from (document, offset, semantic context) to an
optional proposal.
-/

namespace GenFromImpl

/-- A tuple field of a variant: `ty()` may be syntactically absent. The type
is kept as its textual rendering, which is all the handler uses. -/
structure TupleField where
  ty : Option String
deriving DecidableEq

/-- A record field of a variant: both `name()` and `ty()` may be absent. -/
structure RecordField where
  name : Option String
  ty : Option String
deriving DecidableEq

/-- Mirror of `ast.StructKind`: the shape of a variant. -/
inductive StructKind where
  | tuple (fields : List TupleField)
  | record (fields : List RecordField)
  | unit
deriving DecidableEq

/-- A text range in the document, as byte offsets. -/
structure TextRange where
  start : Nat
  stop : Nat
deriving DecidableEq

/-- A variant node: `name()` may be absent; it carries its shape and its
exact text range. -/
structure Variant where
  name : Option String
  kind : StructKind
  range : TextRange
deriving DecidableEq

/-- One generic parameter: a lifetime parameter whose lifetime token may be
missing, or a type parameter whose name may be missing. Bounds are not
extracted individually because the handler only ever reprints the whole
parameter list verbatim (`sourceText`) or the bare names. -/
inductive GenericParam where
  | lifetimeParam (lifetime : Option String)
  | typeParam (name : Option String)
deriving DecidableEq

/-- Mirror of `ast.GenericParamList`: the verbatim source text of the whole list
(what `type_params.syntax()` renders, bounds included), together with the
parameters in declaration order (lifetimes and types possibly interleaved). -/
structure GenericParamList where
  sourceText : String
  params : List GenericParam
deriving DecidableEq

/-- The enum declaration enclosing the variant: `name()` may be absent, the
generic parameter list may be absent, and `rangeEnd` is the end offset of
the full text span of the declaration. -/
structure EnumDecl where
  name : Option String
  generic_param_list : Option GenericParamList
  variants : List Variant
  rangeEnd : Nat
deriving DecidableEq

/-- Semantic definition of a variant as the duplicate check consumes it:
the owning crate of the parent enum, the semantic type of the parent enum,
and the semantic types of the variant fields in order. Semantic types and
trait definitions are opaque identifiers. -/
structure SemanticVariantDef where
  krate : Nat
  enumTy : String
  fieldTys : List String
deriving DecidableEq

/-- The semantic-analysis capability used by `existing_from_impl`:
`toDef` resolves a syntax variant to its semantic definition,
`coreConvertFrom` resolves the `core::convert::From` trait in a crate,
`implsTrait` answers whether a type implements a trait at given arguments. -/
structure Semantics where
  toDef : Variant → Option SemanticVariantDef
  coreConvertFrom : Nat → Option Nat
  implsTrait : String → Nat → List String → Bool

/-- The assist context: the parsed document (the enclosing enum declaration),
the cursor offset, and the semantic context. -/
structure AssistContext where
  doc : EnumDecl
  offset : Nat
  sema : Semantics

/-- The proposal an accepted invocation registers: assist id, kind, label,
applicability range (`target`), insertion offset and inserted text. -/
structure Proposal where
  id : String
  assistKind : String
  label : String
  target : TextRange
  start_offset : Nat
  inserted : String
deriving DecidableEq

/-- Mirror of `ctx.find_node_at_offset::<ast::Variant>()`: the variant node whose text
range covers the cursor offset. -/
def find_node_at_offset (doc : EnumDecl) (offset : Nat) : Option Variant :=
  doc.variants.find? fun v => decide (v.range.start ≤ offset ∧ offset ≤ v.range.stop)

/-- Mirror of `existing_from_impl` from the source: resolve the variant,
resolve `core::convert::From` in the owning crate, take the first field
and its signature type, and ask whether the enum type already implements
`From<wrapped_type>`. Every resolution failure yields `none`. -/
def existing_from_impl (sema : Semantics) (variant : Variant) : Option Unit := do
  let v ← sema.toDef variant
  let from_trait ← sema.coreConvertFrom v.krate
  let enum_type := v.enumTy
  let wrapped_type ← v.fieldTys.get? 0
  if sema.implsTrait enum_type from_trait [wrapped_type] then some () else none

/-- The shape classification performed by the `match variant.kind()` block:
accept a tuple shape with exactly one field whose type is present, yielding
`(none, field_type)`, or a record shape with exactly one field whose name
and type are present, yielding `(some field_name, field_type)`; reject unit
shapes and any other field count. -/
def classify (variant : Variant) : Option (Option String × String) :=
  match variant.kind with
  | StructKind.tuple field_list =>
      if field_list.length != 1 then none
      else
        match field_list.head? with
        | none => none
        | some f =>
            match f.ty with
            | none => none
            | some t => some (none, t)
  | StructKind.record field_list =>
      if field_list.length != 1 then none
      else
        match field_list.head? with
        | none => none
        | some f =>
            match f.name, f.ty with
            | some n, some t => some (some n, t)
            | _, _ => none
  | StructKind.unit => none

/-- The names-only generic argument list: lifetime tokens of the lifetime
parameters in declaration order (parameters without a token are skipped by
`filter_map`), then names of the type parameters in declaration order
(unnamed ones skipped), exactly as `lifetime_params.chain(type_params)`. -/
def namesOnlyList (tp : GenericParamList) : List String :=
  (tp.params.filterMap fun p =>
    match p with
    | GenericParam.lifetimeParam l => l
    | GenericParam.typeParam _ => none) ++
  (tp.params.filterMap fun p =>
    match p with
    | GenericParam.lifetimeParam _ => none
    | GenericParam.typeParam n => n)

/-- The string built into `buf` by the edit closure: `"\n\nimpl"`, the
verbatim generic parameter list if present, ` From<field_type> for enum_name`,
the names-only angle-bracket list if generic parameters are present, then the
body template for the record (named field) or tuple (parameter `v`) shape. -/
def buildFragment (enum_type_params : Option GenericParamList) (enum_name : String)
    (variant_name : String) (field_name : Option String) (field_type : String) : String :=
  let buf := "\n\nimpl"
  let buf := match enum_type_params with
    | some tp => buf ++ tp.sourceText
    | none => buf
  let buf := buf ++ " From<" ++ field_type ++ "> for " ++ enum_name
  let buf := match enum_type_params with
    | some tp => buf ++ "<" ++ String.intercalate ", " (namesOnlyList tp) ++ ">"
    | none => buf
  match field_name with
  | some name =>
      buf ++ " \x7b\n    fn from(" ++ name ++ ": " ++ field_type ++
        ") -> Self \x7b\n        Self::" ++ variant_name ++ " \x7b " ++ name ++
        " \x7d\n    \x7d\n\x7d"
  | none =>
      buf ++ " \x7b\n    fn from(v: " ++ field_type ++
        ") -> Self \x7b\n        Self::" ++ variant_name ++ "(v)\n    \x7d\n\x7d"

/-- The handler as a pure function on (document, offset, semantic context):
find the variant at the offset, require its name, the enum name, an
accepted single-field shape, and no existing `From` impl; then register the
proposal whose edit inserts the built fragment at the end offset of the
enum declaration, with the text range of the variant as the target. -/
def propose (doc : EnumDecl) (offset : Nat) (sema : Semantics) : Option Proposal :=
  match find_node_at_offset doc offset with
  | none => none
  | some variant =>
      match variant.name with
      | none => none
      | some variant_name =>
          match doc.name with
          | none => none
          | some enum_name =>
              let enum_type_params := doc.generic_param_list
              match classify variant with
              | none => none
              | some (field_name, field_type) =>
                  if (existing_from_impl sema variant).isSome then none
                  else
                    some ⟨"generate_from_impl_for_enum", "Generate",
                      "Generate `From` impl for this enum variant",
                      variant.range, doc.rangeEnd,
                      buildFragment enum_type_params enum_name variant_name
                        field_name field_type⟩

/-- Mirror of `generate_from_impl_for_enum` with the `Assists` accumulator made
explicit: a successful `acc.add` appends the proposal and returns `some ()`,
any failure leaves the accumulator untouched and returns `none`. -/
def generate_from_impl_for_enum (acc : List Proposal) (ctx : AssistContext) :
    List Proposal × Option Unit :=
  match propose ctx.doc ctx.offset ctx.sema with
  | none => (acc, none)
  | some p => (acc ++ [p], some ())

/-- A generic parameter is syntactically complete when its lifetime token
(for a lifetime parameter) or its name (for a type parameter) is present.
Used only to state which parameters the names-only list skips. -/
def completeParam : GenericParam → Bool
  | GenericParam.lifetimeParam (some _) => true
  | GenericParam.lifetimeParam none => false
  | GenericParam.typeParam (some _) => true
  | GenericParam.typeParam none => false

/-- Document for the fixture input with cursor inside the variant:
enum A with the single tuple variant One(u32); the variant node spans
offsets 9 to 17 and the enum declaration ends at offset 19. -/
def docA : EnumDecl :=
  ⟨some "A", none, [⟨some "One", StructKind.tuple [⟨some "u32"⟩], ⟨9, 17⟩⟩], 19⟩

/-- Document for enum A with the single unit variant One. -/
def docUnit : EnumDecl :=
  ⟨some "A", none, [⟨some "One", StructKind.unit, ⟨9, 12⟩⟩], 14⟩

/-- Document for enum A with tuple variants One(u32) and Two(String). -/
def docTwo : EnumDecl :=
  ⟨some "A", none,
    [⟨some "One", StructKind.tuple [⟨some "u32"⟩], ⟨9, 17⟩⟩,
     ⟨some "Two", StructKind.tuple [⟨some "String"⟩], ⟨19, 30⟩⟩], 32⟩

/-- Document for enum A with the single record variant One holding the
named field x of type u32. -/
def docRecord : EnumDecl :=
  ⟨some "A", none, [⟨some "One", StructKind.record [⟨some "x", some "u32"⟩], ⟨9, 23⟩⟩], 25⟩

/-- Document whose variant node has no name but an accepted tuple shape. -/
def docNoName : EnumDecl :=
  ⟨some "A", none, [⟨none, StructKind.tuple [⟨some "u32"⟩], ⟨9, 14⟩⟩], 16⟩

/-- Generic parameter list of enum Generic with an interleaved declaration:
lifetime \x27a, then type parameter T bounded by Clone, then lifetime \x27b. -/
def gplInterleaved : GenericParamList :=
  ⟨"<\x27a, T: Clone, \x27b>",
   [GenericParam.lifetimeParam (some "\x27a"),
    GenericParam.typeParam (some "T"),
    GenericParam.lifetimeParam (some "\x27b")]⟩

/-- Document for enum Generic with interleaved generic parameters and the
tuple variant One(T). -/
def docGeneric : EnumDecl :=
  ⟨some "Generic", some gplInterleaved,
    [⟨some "One", StructKind.tuple [⟨some "T"⟩], ⟨30, 36⟩⟩], 38⟩

/-- Generic parameter list containing a syntactically incomplete (unnamed)
type parameter between two complete parameters. -/
def gplIncomplete : GenericParamList :=
  ⟨"<\x27a, T, >",
   [GenericParam.lifetimeParam (some "\x27a"),
    GenericParam.typeParam (some "T"),
    GenericParam.typeParam none]⟩

/-- Document for an enum G with an incomplete generic parameter and the
tuple variant One(T). -/
def docGenericIncomplete : EnumDecl :=
  ⟨some "G", some gplIncomplete,
    [⟨some "One", StructKind.tuple [⟨some "T"⟩], ⟨20, 26⟩⟩], 28⟩

/-- A semantic context in which everything resolves but no type implements
the conversion trait, so no existing impl blocks a proposal. -/
def semaNoImpl : Semantics :=
  ⟨fun _ => some ⟨0, "A", ["u32"]⟩, fun _ => some 0, fun _ _ _ => false⟩

/-- A semantic context in which the enum type A already implements the
conversion trait exactly at the argument list consisting of String: the
variant One resolves with field type u32, the variant Two with String. -/
def semaCross : Semantics :=
  ⟨fun vv => if vv.name = some "One" then some ⟨0, "A", ["u32"]⟩ else some ⟨0, "A", ["String"]⟩,
   fun _ => some 0, fun _ _ args => args == ["String"]⟩

/-- A semantic context in which variant resolution itself fails. -/
def semaUnresolved : Semantics :=
  ⟨fun _ => none, fun _ => none, fun _ _ _ => false⟩

/-- Inversion: a produced proposal determines every intermediate success of
`propose`, and its components are exactly the registered ones. -/
theorem propose_some_elim {doc : EnumDecl} {offset : Nat} {sema : Semantics} {p : Proposal}
    (h : propose doc offset sema = some p) :
    ∃ v vn en fn ft, find_node_at_offset doc offset = some v ∧ v.name = some vn ∧
      doc.name = some en ∧ classify v = some (fn, ft) ∧
      existing_from_impl sema v = none ∧
      p = ⟨"generate_from_impl_for_enum", "Generate",
        "Generate `From` impl for this enum variant", v.range, doc.rangeEnd,
        buildFragment doc.generic_param_list en vn fn ft⟩ := by
  unfold propose at h
  split at h
  · exact absurd h (by simp)
  next v hv =>
    split at h
    · exact absurd h (by simp)
    next vn hvn =>
      split at h
      · exact absurd h (by simp)
      next en hen =>
        split at h
        · exact absurd h (by simp)
        next fn ft hcl =>
          split at h
          · exact absurd h (by simp)
          next hex =>
            refine ⟨v, vn, en, fn, ft, hv, hvn, hen, hcl, ?_, ?_⟩
            · exact Option.not_isSome_iff_eq_none.mp hex
            · exact (Option.some.inj h).symm

/-- Introduction: when every stage succeeds, `propose` yields the proposal
built from the collected pieces. -/
theorem propose_some_intro {doc : EnumDecl} {offset : Nat} {sema : Semantics}
    {v : Variant} {vn en : String} {fn : Option String} {ft : String}
    (hv : find_node_at_offset doc offset = some v) (hvn : v.name = some vn)
    (hen : doc.name = some en) (hcl : classify v = some (fn, ft))
    (hex : existing_from_impl sema v = none) :
    propose doc offset sema =
      some ⟨"generate_from_impl_for_enum", "Generate",
        "Generate `From` impl for this enum variant", v.range, doc.rangeEnd,
        buildFragment doc.generic_param_list en vn fn ft⟩ := by
  simp [propose, hv, hvn, hen, hcl, hex]

/-- A shape the classifier rejects makes `propose` return `none`. -/
theorem propose_none_of_classify_none {doc : EnumDecl} {offset : Nat} {sema : Semantics}
    {v : Variant} (hv : find_node_at_offset doc offset = some v)
    (hcl : classify v = none) : propose doc offset sema = none := by
  cases hvn : v.name with
  | none => simp [propose, hv, hvn]
  | some vn =>
      cases hen : doc.name with
      | none => simp [propose, hv, hvn, hen]
      | some en => simp [propose, hv, hvn, hen, hcl]

/-- An existing matching impl makes `propose` return `none`. -/
theorem propose_none_of_existing {doc : EnumDecl} {offset : Nat} {sema : Semantics}
    {v : Variant} (hv : find_node_at_offset doc offset = some v)
    (hex : (existing_from_impl sema v).isSome = true) :
    propose doc offset sema = none := by
  cases hvn : v.name with
  | none => simp [propose, hv, hvn]
  | some vn =>
      cases hen : doc.name with
      | none => simp [propose, hv, hvn, hen]
      | some en =>
          cases hcl : classify v with
          | none => simp [propose, hv, hvn, hen, hcl]
          | some fnft =>
              cases fnft with
              | mk fn ft => simp [propose, hv, hvn, hen, hcl, hex]

/-- Claim C1: for every variant whose shape is Unit, or whose shape is
Tuple or Record with a field count different from one, `propose` returns
`none`; only a single-field Tuple or Record shape can proceed. -/
theorem C1_shape_gate (doc : EnumDecl) (offset : Nat) (sema : Semantics) (v : Variant)
    (hv : find_node_at_offset doc offset = some v)
    (hshape : v.kind = StructKind.unit ∨
      (∃ fl, v.kind = StructKind.tuple fl ∧ fl.length ≠ 1) ∨
      (∃ fl, v.kind = StructKind.record fl ∧ fl.length ≠ 1)) :
    propose doc offset sema = none := by
  apply propose_none_of_classify_none hv
  rcases hshape with hu | ⟨fl, hk, hne⟩ | ⟨fl, hk, hne⟩
  · simp [classify, hu]
  · simp [classify, hk, hne]
  · simp [classify, hk, hne]

/-- Witness for C1: the unit variant fixture produces no proposal. -/
theorem C1_shape_gate_witness : propose docUnit 9 semaNoImpl = none :=
  C1_shape_gate docUnit 9 semaNoImpl ⟨some "One", StructKind.unit, ⟨9, 12⟩⟩
    (by decide) (Or.inl rfl)

/-- Claim C9: when the own name of the variant is syntactically absent,
`propose` returns `none` even if the shape is an otherwise-accepted
single-field Tuple or Record shape. -/
theorem C9_variant_name_required (doc : EnumDecl) (offset : Nat) (sema : Semantics)
    (v : Variant) (fnft : Option String × String)
    (hv : find_node_at_offset doc offset = some v)
    (_hcl : classify v = some fnft) (hvn : v.name = none) :
    propose doc offset sema = none := by
  simp [propose, hv, hvn]

/-- Witness for C9: the nameless tuple variant fixture yields no proposal. -/
theorem C9_variant_name_required_witness : propose docNoName 9 semaNoImpl = none :=
  C9_variant_name_required docNoName 9 semaNoImpl
    ⟨none, StructKind.tuple [⟨some "u32"⟩], ⟨9, 14⟩⟩ (none, "u32")
    (by decide) (by decide) rfl

/-- Claim C2: on the fixture enum A with variant One(u32) and a semantic
context without a matching From impl, `propose` produces exactly the
documented proposal, whose inserted text is the exact impl block and whose
insertion offset is the end of the enum declaration; and in general every
accepted Tuple-shaped variant synthesizes a parameter literally named v and
a positional construction of the variant. -/
theorem C2_tuple_example_and_general :
    propose docA 9 semaNoImpl =
      some ⟨"generate_from_impl_for_enum", "Generate",
        "Generate `From` impl for this enum variant", ⟨9, 17⟩, 19,
        "\n\nimpl From<u32> for A \x7b\n    fn from(v: u32) -> Self \x7b\n        Self::One(v)\n    \x7d\n\x7d"⟩ ∧
    ∀ (doc : EnumDecl) (offset : Nat) (sema : Semantics) (v : Variant)
      (vn ft : String) (p : Proposal),
      find_node_at_offset doc offset = some v → v.name = some vn →
      classify v = some (none, ft) → propose doc offset sema = some p →
      ∃ pre, p.inserted = pre ++ " \x7b\n    fn from(v: " ++ ft ++
        ") -> Self \x7b\n        Self::" ++ vn ++ "(v)\n    \x7d\n\x7d" := by
  constructor
  · rfl
  · intro doc offset sema v vn ft p hv hvn hcl hp
    obtain ⟨v2, vn2, en2, fn2, ft2, hv2, hvn2, hen2, hcl2, hex2, hp2⟩ := propose_some_elim hp
    rw [hv] at hv2
    injection hv2 with hveq
    subst hveq
    rw [hvn] at hvn2
    injection hvn2 with hvneq
    subst hvneq
    rw [hcl] at hcl2
    injection hcl2 with hpair
    injection hpair with hfn hft
    subst hfn
    subst hft
    subst hp2
    exact ⟨_, rfl⟩

/-- Witness for C2: the general tuple statement applied at the fixture. -/
theorem C2_tuple_example_and_general_witness :
    ∃ pre,
      ("\n\nimpl From<u32> for A \x7b\n    fn from(v: u32) -> Self \x7b\n        Self::One(v)\n    \x7d\n\x7d" : String) =
        pre ++ " \x7b\n    fn from(v: " ++ "u32" ++ ") -> Self \x7b\n        Self::" ++ "One" ++ "(v)\n    \x7d\n\x7d" :=
  C2_tuple_example_and_general.2 docA 9 semaNoImpl
    ⟨some "One", StructKind.tuple [⟨some "u32"⟩], ⟨9, 17⟩⟩ "One" "u32"
    ⟨"generate_from_impl_for_enum", "Generate",
      "Generate `From` impl for this enum variant", ⟨9, 17⟩, 19,
      "\n\nimpl From<u32> for A \x7b\n    fn from(v: u32) -> Self \x7b\n        Self::One(v)\n    \x7d\n\x7d"⟩
    (by decide) rfl rfl C2_tuple_example_and_general.1

/-- Claim C3: when the variant resolves semantically, the conversion trait
resolves, and the semantic type of the first field is wt, then the proposal is
blocked exactly when the enum type implements the trait at the argument
list consisting of wt alone: if it does, `propose` returns `none`; if it
does not — even if impls exist for other argument lists, such as another
field type of another variant — the duplicate check answers no and a proposal is
still produced for any accepted classification. -/
theorem C3_duplicate_exact_type_match (sema : Semantics) (v : Variant)
    (d : SemanticVariantDef) (tr : Nat) (wt : String)
    (hdef : sema.toDef v = some d) (htr : sema.coreConvertFrom d.krate = some tr)
    (hwt : d.fieldTys[0]? = some wt) :
    (sema.implsTrait d.enumTy tr [wt] = true →
      ∀ (doc : EnumDecl) (offset : Nat), find_node_at_offset doc offset = some v →
        propose doc offset sema = none) ∧
    (sema.implsTrait d.enumTy tr [wt] = false →
      existing_from_impl sema v = none ∧
      ∀ (doc : EnumDecl) (offset : Nat) (vn en : String) (fn : Option String) (ft : String),
        find_node_at_offset doc offset = some v → v.name = some vn →
        doc.name = some en → classify v = some (fn, ft) →
        ∃ p, propose doc offset sema = some p) := by
  constructor
  · intro himpl doc offset hv
    have hex : (existing_from_impl sema v).isSome = true := by
      simp [existing_from_impl, hdef, htr, hwt, himpl]
    exact propose_none_of_existing hv hex
  · intro himpl
    have hex : existing_from_impl sema v = none := by
      simp [existing_from_impl, hdef, htr, hwt, himpl]
    refine ⟨hex, ?_⟩
    intro doc offset vn en fn ft hv hvn hen hcl
    exact ⟨_, propose_some_intro hv hvn hen hcl hex⟩

/-- Witness for C3: in the two-variant fixture, an impl exists exactly for
the argument list of String (the type held by variant Two), yet variant One with
field type u32 is not blocked and a proposal is produced. -/
theorem C3_duplicate_exact_type_match_witness :
    existing_from_impl semaCross ⟨some "One", StructKind.tuple [⟨some "u32"⟩], ⟨9, 17⟩⟩ = none ∧
    ∃ p, propose docTwo 9 semaCross = some p := by
  have h :=
    (C3_duplicate_exact_type_match semaCross
      ⟨some "One", StructKind.tuple [⟨some "u32"⟩], ⟨9, 17⟩⟩
      ⟨0, "A", ["u32"]⟩ 0 "u32" (by decide) (by decide) (by decide)).2 (by decide)
  exact ⟨h.1, h.2 docTwo 9 "One" "A" none "u32" (by decide) rfl rfl (by decide)⟩

/-- Claim C7: if semantic resolution of the variant fails, or the standard
conversion trait cannot be resolved in the owning crate, the duplicate
check answers no (it does not block and does not error), so a proposal is
still produced for any accepted classification. -/
theorem C7_permissive_default (doc : EnumDecl) (offset : Nat) (sema : Semantics)
    (v : Variant) (vn en : String) (fn : Option String) (ft : String)
    (hv : find_node_at_offset doc offset = some v) (hvn : v.name = some vn)
    (hen : doc.name = some en) (hcl : classify v = some (fn, ft))
    (hfail : sema.toDef v = none ∨
      ∃ d, sema.toDef v = some d ∧ sema.coreConvertFrom d.krate = none) :
    existing_from_impl sema v = none ∧ ∃ p, propose doc offset sema = some p := by
  have hex : existing_from_impl sema v = none := by
    rcases hfail with h | ⟨d, hd, htr⟩
    · simp [existing_from_impl, h]
    · simp [existing_from_impl, hd, htr]
  exact ⟨hex, ⟨_, propose_some_intro hv hvn hen hcl hex⟩⟩

/-- Witness for C7: with a semantic context that resolves nothing, the
fixture variant One(u32) still yields a proposal. -/
theorem C7_permissive_default_witness :
    existing_from_impl semaUnresolved
      ⟨some "One", StructKind.tuple [⟨some "u32"⟩], ⟨9, 17⟩⟩ = none ∧
    ∃ p, propose docA 9 semaUnresolved = some p :=
  C7_permissive_default docA 9 semaUnresolved
    ⟨some "One", StructKind.tuple [⟨some "u32"⟩], ⟨9, 17⟩⟩ "One" "A" none "u32"
    (by decide) rfl rfl (by decide) (Or.inl rfl)

/-- Claim C5: every accepted Record-shaped variant with single field n of
type T synthesizes a function whose parameter is named like the field and
whose body constructs the variant with field-init shorthand; the function
is named from, exactly as in the Tuple case. -/
theorem C5_record_synthesis (doc : EnumDecl) (offset : Nat) (sema : Semantics)
    (v : Variant) (vn n ft : String) (p : Proposal)
    (hv : find_node_at_offset doc offset = some v) (hvn : v.name = some vn)
    (hcl : classify v = some (some n, ft)) (hp : propose doc offset sema = some p) :
    ∃ pre, p.inserted = pre ++ " \x7b\n    fn from(" ++ n ++ ": " ++ ft ++
      ") -> Self \x7b\n        Self::" ++ vn ++ " \x7b " ++ n ++ " \x7d\n    \x7d\n\x7d" := by
  obtain ⟨v2, vn2, en2, fn2, ft2, hv2, hvn2, hen2, hcl2, hex2, hp2⟩ := propose_some_elim hp
  rw [hv] at hv2
  injection hv2 with hveq
  subst hveq
  rw [hvn] at hvn2
  injection hvn2 with h1
  subst h1
  rw [hcl] at hcl2
  injection hcl2 with hpair
  injection hpair with hfn hft
  subst hfn
  subst hft
  subst hp2
  exact ⟨_, rfl⟩

/-- Witness for C5: the record fixture enum A with variant One holding the
named field x of type u32. -/
theorem C5_record_synthesis_witness :
    ∃ pre,
      ("\n\nimpl From<u32> for A \x7b\n    fn from(x: u32) -> Self \x7b\n        Self::One \x7b x \x7d\n    \x7d\n\x7d" : String) =
        pre ++ " \x7b\n    fn from(" ++ "x" ++ ": " ++ "u32" ++
          ") -> Self \x7b\n        Self::" ++ "One" ++ " \x7b " ++ "x" ++ " \x7d\n    \x7d\n\x7d" :=
  C5_record_synthesis docRecord 9 semaNoImpl
    ⟨some "One", StructKind.record [⟨some "x", some "u32"⟩], ⟨9, 23⟩⟩ "One" "x" "u32"
    ⟨"generate_from_impl_for_enum", "Generate",
      "Generate `From` impl for this enum variant", ⟨9, 23⟩, 25,
      "\n\nimpl From<u32> for A \x7b\n    fn from(x: u32) -> Self \x7b\n        Self::One \x7b x \x7d\n    \x7d\n\x7d"⟩
    (by decide) rfl (by decide) (by decide)

/-- Every built fragment begins with two newline characters and the word
impl, whatever the generic parameters and shape. -/
theorem buildFragment_head (gpl : Option GenericParamList) (en vn : String)
    (fn : Option String) (ft : String) :
    ∃ rest, buildFragment gpl en vn fn ft = "\n\nimpl" ++ rest := by
  cases gpl with
  | none =>
      cases fn with
      | none =>
          exact ⟨" From<" ++ ft ++ "> for " ++ en ++ " \x7b\n    fn from(v: " ++ ft ++
            ") -> Self \x7b\n        Self::" ++ vn ++ "(v)\n    \x7d\n\x7d",
            by simp only [buildFragment, String.append_assoc]⟩
      | some n =>
          exact ⟨" From<" ++ ft ++ "> for " ++ en ++ " \x7b\n    fn from(" ++ n ++ ": " ++ ft ++
            ") -> Self \x7b\n        Self::" ++ vn ++ " \x7b " ++ n ++ " \x7d\n    \x7d\n\x7d",
            by simp only [buildFragment, String.append_assoc]⟩
  | some tp =>
      cases fn with
      | none =>
          exact ⟨tp.sourceText ++ " From<" ++ ft ++ "> for " ++ en ++ "<" ++
            String.intercalate ", " (namesOnlyList tp) ++ ">" ++ " \x7b\n    fn from(v: " ++ ft ++
            ") -> Self \x7b\n        Self::" ++ vn ++ "(v)\n    \x7d\n\x7d",
            by simp only [buildFragment, String.append_assoc]⟩
      | some n =>
          exact ⟨tp.sourceText ++ " From<" ++ ft ++ "> for " ++ en ++ "<" ++
            String.intercalate ", " (namesOnlyList tp) ++ ">" ++ " \x7b\n    fn from(" ++ n ++ ": " ++ ft ++
            ") -> Self \x7b\n        Self::" ++ vn ++ " \x7b " ++ n ++ " \x7d\n    \x7d\n\x7d",
            by simp only [buildFragment, String.append_assoc]⟩

/-- Claim C6: every produced proposal inserts at the end offset of the
enclosing enum declaration, its fragment begins with two newlines followed
by impl, and its applicability range is the exact text
range, not the insertion point. -/
theorem C6_insertion_point (doc : EnumDecl) (offset : Nat) (sema : Semantics)
    (v : Variant) (p : Proposal)
    (hv : find_node_at_offset doc offset = some v)
    (hp : propose doc offset sema = some p) :
    p.start_offset = doc.rangeEnd ∧ (∃ rest, p.inserted = "\n\nimpl" ++ rest) ∧
    p.target = v.range := by
  obtain ⟨v2, vn2, en2, fn2, ft2, hv2, hvn2, hen2, hcl2, hex2, hp2⟩ := propose_some_elim hp
  rw [hv] at hv2
  injection hv2 with hveq
  subst hveq
  subst hp2
  exact ⟨rfl, buildFragment_head _ _ _ _ _, rfl⟩

/-- Witness for C6: the tuple fixture proposal inserts at offset 19, the
end of the enum declaration, and targets the variant range 9 to 17. -/
theorem C6_insertion_point_witness :
    (19 : Nat) = docA.rangeEnd ∧
    (∃ rest,
      ("\n\nimpl From<u32> for A \x7b\n    fn from(v: u32) -> Self \x7b\n        Self::One(v)\n    \x7d\n\x7d" : String) =
        "\n\nimpl" ++ rest) ∧
    (⟨9, 17⟩ : TextRange) = TextRange.mk 9 17 :=
  C6_insertion_point docA 9 semaNoImpl
    ⟨some "One", StructKind.tuple [⟨some "u32"⟩], ⟨9, 17⟩⟩
    ⟨"generate_from_impl_for_enum", "Generate",
      "Generate `From` impl for this enum variant", ⟨9, 17⟩, 19,
      "\n\nimpl From<u32> for A \x7b\n    fn from(v: u32) -> Self \x7b\n        Self::One(v)\n    \x7d\n\x7d"⟩
    (by decide) (by decide)

/-- Claim C8: the operation is a pure function of its inputs: two
invocations on the same (document, offset, semantic context) agree, the
returned applicability result does not depend on the accumulator state,
and the proposals appended beyond the prior accumulator contents are the
same for any two prior states. -/
theorem C8_pure_deterministic (doc : EnumDecl) (offset : Nat) (sema : Semantics)
    (acc acc2 : List Proposal) :
    propose doc offset sema = propose doc offset sema ∧
    (generate_from_impl_for_enum acc ⟨doc, offset, sema⟩).2 =
      (generate_from_impl_for_enum acc2 ⟨doc, offset, sema⟩).2 ∧
    (generate_from_impl_for_enum acc ⟨doc, offset, sema⟩).1.drop acc.length =
      (generate_from_impl_for_enum acc2 ⟨doc, offset, sema⟩).1.drop acc2.length := by
  refine ⟨rfl, ?_, ?_⟩ <;>
    cases h : propose doc offset sema <;>
      simp [generate_from_impl_for_enum, h, List.drop_left, List.drop_length]

/-- Claim C4: for an enum with generic parameters, the inserted fragment
reproduces the original parameter list verbatim immediately after impl,
and after the enum name a names-only angle-bracket list holding all
lifetime names in declaration order followed by all type-parameter names
in declaration order, comma-separated, regardless of interleaving. -/
theorem C4_generic_param_lists (doc : EnumDecl) (offset : Nat) (sema : Semantics)
    (v : Variant) (vn en : String) (tp : GenericParamList) (fn : Option String)
    (ft : String) (p : Proposal)
    (hv : find_node_at_offset doc offset = some v) (hvn : v.name = some vn)
    (hen : doc.name = some en) (htp : doc.generic_param_list = some tp)
    (hcl : classify v = some (fn, ft)) (hp : propose doc offset sema = some p) :
    ∃ body,
      p.inserted =
        "\n\nimpl" ++ tp.sourceText ++ " From<" ++ ft ++ "> for " ++ en ++ "<" ++
          String.intercalate ", "
            ((tp.params.filterMap fun q =>
                match q with
                | GenericParam.lifetimeParam l => l
                | GenericParam.typeParam _ => none) ++
             (tp.params.filterMap fun q =>
                match q with
                | GenericParam.lifetimeParam _ => none
                | GenericParam.typeParam n => n)) ++ ">" ++ body := by
  obtain ⟨v2, vn2, en2, fn2, ft2, hv2, hvn2, hen2, hcl2, hex2, hp2⟩ := propose_some_elim hp
  rw [hv] at hv2
  injection hv2 with hveq
  subst hveq
  rw [hvn] at hvn2
  injection hvn2 with h1
  subst h1
  rw [hen] at hen2
  injection hen2 with h2
  subst h2
  rw [hcl] at hcl2
  injection hcl2 with hpair
  injection hpair with hfn hft
  subst hfn
  subst hft
  subst hp2
  cases fn with
  | none =>
      exact ⟨" \x7b\n    fn from(v: " ++ ft ++ ") -> Self \x7b\n        Self::" ++ vn ++
        "(v)\n    \x7d\n\x7d",
        by simp only [buildFragment, namesOnlyList, htp, String.append_assoc]⟩
  | some n =>
      exact ⟨" \x7b\n    fn from(" ++ n ++ ": " ++ ft ++ ") -> Self \x7b\n        Self::" ++ vn ++
        " \x7b " ++ n ++ " \x7d\n    \x7d\n\x7d",
        by simp only [buildFragment, namesOnlyList, htp, String.append_assoc]⟩

/-- Witness for C4: the interleaved fixture enum Generic with parameters
lifetime a, type T bounded by Clone, lifetime b yields the verbatim
bound-bearing list after impl and the names-only list with both lifetimes
before T. -/
theorem C4_generic_param_lists_witness :
    ∃ body,
      ("\n\nimpl<\x27a, T: Clone, \x27b> From<T> for Generic<\x27a, \x27b, T> \x7b\n    fn from(v: T) -> Self \x7b\n        Self::One(v)\n    \x7d\n\x7d" : String) =
        "\n\nimpl" ++ gplInterleaved.sourceText ++ " From<" ++ "T" ++ "> for " ++ "Generic" ++ "<" ++
          String.intercalate ", "
            ((gplInterleaved.params.filterMap fun q =>
                match q with
                | GenericParam.lifetimeParam l => l
                | GenericParam.typeParam _ => none) ++
             (gplInterleaved.params.filterMap fun q =>
                match q with
                | GenericParam.lifetimeParam _ => none
                | GenericParam.typeParam n => n)) ++ ">" ++ body :=
  C4_generic_param_lists docGeneric 30 semaNoImpl
    ⟨some "One", StructKind.tuple [⟨some "T"⟩], ⟨30, 36⟩⟩ "One" "Generic"
    gplInterleaved none "T"
    ⟨"generate_from_impl_for_enum", "Generate",
      "Generate `From` impl for this enum variant", ⟨30, 36⟩, 38,
      "\n\nimpl<\x27a, T: Clone, \x27b> From<T> for Generic<\x27a, \x27b, T> \x7b\n    fn from(v: T) -> Self \x7b\n        Self::One(v)\n    \x7d\n\x7d"⟩
    (by decide) rfl rfl rfl (by decide) (by decide)

/-- A filterMap that sends every incomplete generic parameter to none is
unchanged by first filtering the incomplete parameters out. -/
theorem filterMap_skips_incomplete (f : GenericParam → Option String)
    (hf : ∀ q, completeParam q = false → f q = none) (l : List GenericParam) :
    (l.filter completeParam).filterMap f = l.filterMap f := by
  induction l with
  | nil => rfl
  | cons q l ih =>
      cases hq : completeParam q with
      | false =>
          have hnone : f q = none := hf q hq
          simp [List.filter_cons, hq, List.filterMap_cons, hnone, ih]
      | true =>
          cases hfq : f q <;>
            simp [List.filter_cons, hq, List.filterMap_cons, hfq, ih]

/-- Claim C10: a lifetime parameter lacking its lifetime token and a type
parameter lacking its name are silently skipped when building the
names-only list — the list is the one computed from the complete
parameters alone — while the proposal is still produced and the verbatim
bound-bearing list after impl still reproduces the whole source text. -/
theorem C10_incomplete_params_skipped (doc : EnumDecl) (offset : Nat) (sema : Semantics)
    (v : Variant) (vn en : String) (tp : GenericParamList) (fn : Option String)
    (ft : String)
    (hv : find_node_at_offset doc offset = some v) (hvn : v.name = some vn)
    (hen : doc.name = some en) (htp : doc.generic_param_list = some tp)
    (_hincomplete : GenericParam.lifetimeParam none ∈ tp.params ∨
      GenericParam.typeParam none ∈ tp.params)
    (hcl : classify v = some (fn, ft)) (hex : existing_from_impl sema v = none) :
    ∃ p, propose doc offset sema = some p ∧
      ∃ body, p.inserted =
        "\n\nimpl" ++ tp.sourceText ++ " From<" ++ ft ++ "> for " ++ en ++ "<" ++
          String.intercalate ", "
            (namesOnlyList ⟨tp.sourceText, tp.params.filter completeParam⟩) ++ ">" ++ body := by
  have hf1 : ∀ q, completeParam q = false →
      (match q with
        | GenericParam.lifetimeParam l => l
        | GenericParam.typeParam _ => none) = (none : Option String) := by
    intro q hq
    cases q with
    | lifetimeParam l =>
        cases l with
        | none => rfl
        | some s => simp [completeParam] at hq
    | typeParam n => rfl
  have hf2 : ∀ q, completeParam q = false →
      (match q with
        | GenericParam.lifetimeParam _ => none
        | GenericParam.typeParam n => n) = (none : Option String) := by
    intro q hq
    cases q with
    | lifetimeParam l => rfl
    | typeParam n =>
        cases n with
        | none => rfl
        | some s => simp [completeParam] at hq
  have hnames : namesOnlyList ⟨tp.sourceText, tp.params.filter completeParam⟩ =
      namesOnlyList tp := by
    unfold namesOnlyList
    rw [filterMap_skips_incomplete _ hf1 _, filterMap_skips_incomplete _ hf2 _]
  refine ⟨_, propose_some_intro hv hvn hen hcl hex, ?_⟩
  rw [hnames]
  cases fn with
  | none =>
      exact ⟨" \x7b\n    fn from(v: " ++ ft ++ ") -> Self \x7b\n        Self::" ++ vn ++
        "(v)\n    \x7d\n\x7d",
        by simp only [buildFragment, namesOnlyList, htp, String.append_assoc]⟩
  | some n =>
      exact ⟨" \x7b\n    fn from(" ++ n ++ ": " ++ ft ++ ") -> Self \x7b\n        Self::" ++ vn ++
        " \x7b " ++ n ++ " \x7d\n    \x7d\n\x7d",
        by simp only [buildFragment, namesOnlyList, htp, String.append_assoc]⟩

/-- Witness for C10: the fixture enum G with an unnamed type parameter in
its list still yields a proposal; the verbatim list keeps the incomplete
source text while the names-only list is computed from the complete
parameters only. -/
theorem C10_incomplete_params_skipped_witness :
    ∃ p, propose docGenericIncomplete 20 semaNoImpl = some p ∧
      ∃ body, p.inserted =
        "\n\nimpl" ++ gplIncomplete.sourceText ++ " From<" ++ "T" ++ "> for " ++ "G" ++ "<" ++
          String.intercalate ", "
            (namesOnlyList ⟨gplIncomplete.sourceText, gplIncomplete.params.filter completeParam⟩) ++
          ">" ++ body :=
  C10_incomplete_params_skipped docGenericIncomplete 20 semaNoImpl
    ⟨some "One", StructKind.tuple [⟨some "T"⟩], ⟨20, 26⟩⟩ "One" "G"
    gplIncomplete none "T"
    (by decide) rfl rfl rfl (Or.inr (by decide)) (by decide) (by decide)

end GenFromImpl
